import Mathlib

/-!
Verification development for the auto partitioner of the system-installer
repository (usr/share/system-installer/auto_partitioner.py).

The python module is shallowly embedded below.  Python integers are mapped
to Int or Nat, python float arithmetic is mapped to exact rationals
(or to the reals where a square root occurs), python dynamic values are
mapped to small inductive types, and the destructive calls into parted,
mkfs and mkfs.btrfs are recorded as an explicit list of actions produced
by the planner together with its return value.  Exceptions are modelled
with Except.
-/

/-! ## Unit conversion helpers (gb_to_bytes, bytes_to_gb, sectors_to_size) -/

/-- Python int() applied to a float or rational: truncation toward zero. -/
def pyInt (q : ℚ) : ℤ := if 0 ≤ q then ⌊q⌋ else ⌈q⌉

/-- gb_to_bytes from the source: gb * 10 ** 9 (rational version used by the
planner arithmetic). -/
def gb_to_bytes (gb : ℚ) : ℚ := gb * 10 ^ 9

/-- sectors_to_size from the source: (sectors * sector_size) / 1000 ** 2. -/
def sectors_to_size (sectors : ℚ) (sector_size : ℕ) : ℚ :=
  sectors * sector_size / 1000 ^ 2

/-- parted.sizeToSectors(mb, "MB", sector_size): mb * 10 ** 6 / sector_size. -/
def sizeToSectors (mb : ℚ) (sector_size : ℕ) : ℚ := mb * 10 ^ 6 / sector_size

/-- Module level LIMITER = gb_to_bytes(32). -/
def LIMITER : ℚ := gb_to_bytes 32

/-! ## get_min_root_size

The swap formula mixes integers with a float square root, so this part of
the module is embedded over the reals.  The live system memory that
psutil.virtual_memory().total would report is passed in as sysMem, and the
configured "min root size" entry is the minRootCfg argument. -/

namespace MinRoot

/-- gb_to_bytes from the source, real version: gb * 10 ** 9. -/
def gb_to_bytes (gb : ℝ) : ℝ := gb * 10 ^ 9

/-- get_min_root_size from the source (bytes=True path).  When swap is
enabled the swap allowance is round(mem + ((mem / 1024 ** 3) ** 0.5) *
1024 ** 3) where mem is the explicit RAM size (in GB when ram_size_unit is
true, in bytes otherwise) or the live system memory; the configured floor
times 1000 ** 2 is always added. -/
noncomputable def get_min_root_size (minRootCfg : ℤ) (sysMem : ℝ) (swap : Bool)
    (ram_size : Option ℝ) (ram_size_unit : Bool) : ℤ :=
  (if swap then
      (let mem : ℝ :=
        match ram_size with
        | none => sysMem
        | some r => if ram_size_unit then gb_to_bytes r else r
      round (mem + Real.sqrt (mem / 1024 ^ 3) * 1024 ^ 3))
    else 0)
  + minRootCfg * 1000 ^ 2

end MinRoot

/-! ## RAID data model -/

/-- Errors raised by make_raid_array: ValueError and FileNotFoundError. -/
inductive RaidErr where
  | valueError (msg : String)
  | fileNotFound (path : String)
deriving DecidableEq, Repr

/-- Python value held in raid_array["raid_type"] once partition() has run
its conversion step: None, the string "OEM", an unconverted string, or an
int. -/
inductive RTState where
  | noneV
  | oemV
  | strV (s : String)
  | intV (n : ℤ)
deriving DecidableEq, Repr

/-- Membership of the raid_type value in the keys of raid_types_dict
(the dict {0: "raid0", 1: "raid1", 5: "raid5", 6: "raid6", 10: "raid10"}). -/
def validRaidInt (n : ℤ) : Prop := n = 0 ∨ n = 1 ∨ n = 5 ∨ n = 6 ∨ n = 10

instance : DecidablePred validRaidInt := fun n => by unfold validRaidInt; infer_instance

/-- Key lookup of the raid_type value in raid_types_dict. -/
def dictKeyOf : RTState → Option ℤ
  | .intV n => if validRaidInt n then some n else none
  | _ => none

/-- make_raid_array from the source.  ex models os.path.exists, build models
the exit status of the mkfs.btrfs subprocess call (True on success), force
mirrors the source argument (it only alters the command line, so it does
not affect the embedded result).  Validation errors are raised before the
subprocess runs; a run that reaches the subprocess returns ok. -/
def make_raid_array (ex : String → Bool) (build : Bool) (disks : List String)
    (raid_type : RTState) (force : Bool) : Except RaidErr Bool :=
  match dictKeyOf raid_type with
  | none => .error (.valueError "not a valid BTRFS RAID type")
  | some n =>
    if (n = 0 ∨ n = 1) ∧ disks.length < 2 then
      .error (.valueError "Not enough disks")
    else if n = 5 ∧ ¬(3 ≤ disks.length ∧ disks.length ≤ 16) then
      .error (.valueError "Not enough or Too many disks for RAID5")
    else if (n = 6 ∨ n = 10) ∧ disks.length < 4 then
      .error (.valueError "Not enough disks")
    else
      match disks.find? (fun d => !(ex d)) with
      | some d => .error (.fileNotFound d)
      | none => .ok build

/-- Member count constraint as worded by the spec: fewer than 2 disks for
RAID0 or RAID1, a count outside [3, 16] for RAID5, fewer than 4 disks for
RAID6 or RAID10. -/
def badCount (n : ℤ) (len : ℕ) : Prop :=
  ((n = 0 ∨ n = 1) ∧ len < 2) ∨ (n = 5 ∧ ¬(3 ≤ len ∧ len ≤ 16)) ∨
    ((n = 6 ∨ n = 10) ∧ len < 4)

instance : ∀ n len, Decidable (badCount n len) := fun n len => by
  unfold badCount; infer_instance

/-- Recognizer for a raised ValueError. -/
def isValueErrorB : Except RaidErr Bool → Bool
  | .error (.valueError _) => true
  | _ => false

/-! ## Device naming helpers -/

/-- Substring test, modelling the python expression "nvme" in part_path. -/
def strContains (hay needle : String) : Bool :=
  (List.range (hay.length + 1)).any
    (fun i => ((hay.data.drop i).take needle.length) == needle.data)

/-- The check "nvme" in part_path used throughout the source. -/
def hasNvme (s : String) : Bool := strContains s "nvme"

/-- Python slice s[n:] (characterwise). -/
def pyDrop (s : String) (n : ℕ) : String := ⟨s.data.drop n⟩

/-- Python slice s[:n] for nonnegative n (characterwise). -/
def pyTake (s : String) (n : ℕ) : String := ⟨s.data.take n⟩

/-- Python str.lower() for the ascii strings the planner compares
(characterwise ascii lowering). -/
def pyLower (s : String) : String := ⟨s.data.map Char.toLower⟩

/-- Python int() on a nonnegative decimal string; none models the
ValueError raised on anything else. -/
def parseNat (s : String) : Option ℕ :=
  if s.data ≠ [] ∧ s.data.all Char.isDigit then
    some (s.data.foldl (fun acc c => acc * 10 + (c.toNat - 48)) 0)
  else none

/-! ## make_part_boot -/

/-- make_part_boot from the source.  The primary partitions of the backing
device are passed as the list primaries; the function returns the list
entry whose boot flag gets set, none modelling the IndexError (or a failed
int() parse) escaping the call.  The partition number is sliced off the
path at character offset 8 (offset 13 for NVMe paths) and used directly as
a zero based list index into getPrimaryPartitions(). -/
def make_part_boot (primaries : List String) (part_path : String) : Option String :=
  let idx :=
    if hasNvme part_path then parseNat (pyDrop part_path 13)
    else parseNat (pyDrop part_path 8)
  match idx with
  | some n => primaries.get? n
  | none => none

/-! ## Claim C2 -/

/-- C2: make_raid_array raises ValueError when raid_type is not one of
{0, 1, 5, 6, 10}; for a valid type it raises ValueError exactly when the
member count violates that type bounds (RAID0/1 need at least 2, RAID5
needs 3 to 16, RAID6/10 need at least 4); with a valid type, a valid count
and all member paths present it reaches the array creation subprocess. -/
theorem c2_raid_validation :
    ∀ (ex : String → Bool) (build : Bool) (disks : List String) (n : ℤ) (force : Bool),
      (¬ validRaidInt n →
        isValueErrorB (make_raid_array ex build disks (.intV n) force) = true)
      ∧ (validRaidInt n →
        (isValueErrorB (make_raid_array ex build disks (.intV n) force) = true
          ↔ badCount n disks.length))
      ∧ (validRaidInt n → ¬ badCount n disks.length →
          (∀ d ∈ disks, ex d = true) →
          make_raid_array ex build disks (.intV n) force = .ok build) := by
  intro ex build disks n force
  refine ⟨?_, ?_, ?_⟩
  · intro hv
    simp [make_raid_array, dictKeyOf, hv, isValueErrorB]
  · intro hv
    simp only [make_raid_array, dictKeyOf, if_pos hv]
    split_ifs with h1 h2 h3
    · simp [isValueErrorB, badCount, h1]
    · simp [isValueErrorB, badCount, h2]
    · simp [isValueErrorB, badCount, h3]
    · cases hf : disks.find? (fun d => !(ex d)) with
      | some d => simp [isValueErrorB, badCount]; omega
      | none => simp [isValueErrorB, badCount]; omega
  · intro hv hbc hex
    simp only [make_raid_array, dictKeyOf, if_pos hv]
    split_ifs with h1 h2 h3
    · exact absurd (Or.inl h1) hbc
    · exact absurd (Or.inr (Or.inl h2)) hbc
    · exact absurd (Or.inr (Or.inr h3)) hbc
    · have hfind : disks.find? (fun d => !(ex d)) = none :=
        List.find?_eq_none.mpr (fun d hd => by simp [hex d hd])
      simp [hfind]

/-- C2 witness: RAID0 with two existing member disks reaches array
creation, with one disk it raises ValueError, and raid_type 3 raises
ValueError. -/
theorem c2_raid_validation_witness :
    make_raid_array (fun _ => true) true ["/dev/sdb", "/dev/sdc"] (.intV 0) false = .ok true
    ∧ isValueErrorB (make_raid_array (fun _ => true) true ["/dev/sdb"] (.intV 0) false) = true
    ∧ isValueErrorB (make_raid_array (fun _ => true) true ["/dev/sdb"] (.intV 3) false) = true := by
  refine ⟨?_, ?_, ?_⟩
  · exact (c2_raid_validation (fun _ => true) true ["/dev/sdb", "/dev/sdc"] 0 false).2.2
      (by decide) (by decide) (by decide)
  · exact ((c2_raid_validation (fun _ => true) true ["/dev/sdb"] 0 false).2.1
      (by decide)).mpr (by decide)
  · exact (c2_raid_validation (fun _ => true) true ["/dev/sdb"] 3 false).1 (by decide)

/-! ## Claim C3 -/

/-- C3: with swap enabled and an explicit RAM size in GB, get_min_root_size
returns round(mem + sqrt(mem / 1073741824) * 1073741824) plus the
configured min-root-size times 1000 squared, where mem = ram * 10 ** 9;
with swap disabled it returns the configured min-root-size times 1000
squared. -/
theorem c3_min_root_size :
    ∀ (cfg : ℤ) (sysMem : ℝ) (ram : ℝ),
      MinRoot.get_min_root_size cfg sysMem true (some ram) true
        = round ((ram * 10 ^ 9 : ℝ)
            + Real.sqrt ((ram * 10 ^ 9) / 1073741824) * 1073741824)
          + cfg * 1000 ^ 2
      ∧ MinRoot.get_min_root_size cfg sysMem false (some ram) true
        = cfg * 1000 ^ 2 := by
  intro cfg sysMem ram
  constructor
  · have h3 : ((1024 : ℝ) ^ 3) = 1073741824 := by norm_num
    simp [MinRoot.get_min_root_size, MinRoot.gb_to_bytes, h3]
  · simp [MinRoot.get_min_root_size]

/-! ## Claim C10 -/

/-- C10: for a non NVMe path /dev/sdXN, make_part_boot flags the primary
partition at zero based list index N, that is the (N+1)-th entry of the
primary partition list, and it fails out of range whenever the list holds
at most N entries; for NVMe paths the number after p is used the same
way. -/
theorem c10_boot_flag_indexing :
    ∀ (primaries : List String) (path : String) (n : ℕ),
      (hasNvme path = false → parseNat (pyDrop path 8) = some n →
        make_part_boot primaries path = primaries.get? n
        ∧ (primaries.length ≤ n → make_part_boot primaries path = none))
      ∧ (hasNvme path = true → parseNat (pyDrop path 13) = some n →
        make_part_boot primaries path = primaries.get? n
        ∧ (primaries.length ≤ n → make_part_boot primaries path = none)) := by
  intro primaries path n
  constructor
  · intro hn hp
    constructor
    · simp [make_part_boot, hn, hp]
    · intro hlen
      simpa [make_part_boot, hn, hp, List.get?_eq_none] using hlen
  · intro hn hp
    constructor
    · simp [make_part_boot, hn, hp]
    · intro hlen
      simpa [make_part_boot, hn, hp, List.get?_eq_none] using hlen

/-- C10 witness: with a two entry partition list, /dev/sda1 flags the
second entry (index 1), /dev/sda2 is out of range, and /dev/nvme0n1p1
also flags the second entry. -/
theorem c10_boot_flag_indexing_witness :
    make_part_boot ["first", "second"] "/dev/sda1" = some "second"
    ∧ make_part_boot ["first", "second"] "/dev/sda2" = none
    ∧ make_part_boot ["first", "second"] "/dev/nvme0n1p1" = some "second" := by
  refine ⟨?_, ?_, ?_⟩
  · have h := ((c10_boot_flag_indexing ["first", "second"] "/dev/sda1" 1).1
      (by decide) (by decide)).1
    simpa using h
  · exact ((c10_boot_flag_indexing ["first", "second"] "/dev/sda2" 2).1
      (by decide) (by decide)).2 (by decide)
  · have h := ((c10_boot_flag_indexing ["first", "second"] "/dev/nvme0n1p1" 1).2
      (by decide) (by decide)).1
    simpa using h

/-! ## Planner data model

partition(root, efi, home, raid_array) works against a concrete device and
some external processes.  The embedding gathers everything the function
observes from the outside world into Env: the device geometry, the free
space regions an existing table would report, the value that the call
get_min_root_size() would produce at run time, os.path.exists, and the
exit status of the mkfs.btrfs subprocess (as a function of the force
flag).  Every destructive call is recorded in order as an Act. -/

/-- Python value of the home argument: None or a string. -/
inductive HomeV where
  | noneV
  | strV (s : String)
deriving DecidableEq, Repr

/-- Python value of raid_array["raid_type"] on entry: None, "OEM" or a
string naming the type. -/
inductive RTIn where
  | noneV
  | oemV
  | strV (s : String)
deriving DecidableEq, Repr

/-- raid_array as handed to partition(): the raid_type value and the disks
dict, a mapping from slot name to an optional member path. -/
structure RaidIn where
  raid_type : RTIn
  disks : List (String × Option String)
deriving DecidableEq, Repr

/-- Value of raid_array["disks"] after preprocessing: still the original
dict, or the filtered list of member paths. -/
inductive DisksV where
  | dict (d : List (String × Option String))
  | list (l : List String)
deriving DecidableEq, Repr

/-- Member paths of a DisksV value (the list case is the only one the
builder ever sees). -/
def disksOf : DisksV → List String
  | .dict d => d.filterMap Prod.snd
  | .list l => l

/-- A free space region of the existing table, in sectors, as returned by
getFreeSpaceRegions (start sector, end sector, length in sectors). -/
structure Region where
  start : ℕ
  stop : ℕ
  len : ℕ
deriving DecidableEq, Repr

/-- Geometry.getSize() with the default "MB" unit: length * sector_size /
10 ** 6. -/
def Region.getSize (r : Region) (sector_size : ℕ) : ℚ :=
  (r.len : ℚ) * sector_size / 10 ^ 6

/-- External world of one planning run. -/
structure Env where
  length : ℕ
  sectorSize : ℕ
  freeRegions : List Region
  minRootSizeRT : ℤ
  mdswh : ℤ
  exists_ : String → Bool
  raidBuildOk : Bool → Bool

/-- Destructive calls issued by the planner, in order.  Boundary arguments
are recorded exactly as the source passes them (megabyte numbers after the
percent strings have been resolved). -/
inductive Act where
  | clobber (dev : String)
  | buildRaid (disks : List String) (rt : RTState) (force : Bool)
  | mkEfi (start stop : ℚ)
  | mkRoot (start stop : ℚ)
  | mkHome (start stop : ℚ)
  | rootBoot
deriving DecidableEq, Repr

/-- Return dict of partition(): the keys EFI, ROOT and HOME. -/
structure Parts where
  efi : Option String
  root : Option String
  home : Option String
deriving DecidableEq, Repr

/-- One planning run: the recorded destructive calls plus either the
return dict or the exception escaping the call. -/
structure PlanOut where
  actions : List Act
  result : Except RaidErr Parts

/-- Return dict when the run completed. -/
def resultParts (out : PlanOut) : Option Parts :=
  match out.result with
  | .ok p => some p
  | .error _ => none

/-- True when the run ended in an exception. -/
def isErrRes : Except RaidErr Parts → Bool
  | .error _ => true
  | .ok _ => false

/-- True when the run ended in a ValueError. -/
def isValueErrorRes : Except RaidErr Parts → Bool
  | .error (.valueError _) => true
  | _ => false

/-- Build attempts recorded in an action list. -/
def isBuildA : Act → Bool
  | .buildRaid _ _ _ => true
  | _ => false

/-! ## Planner helpers -/

/-- size variable of partition(): sectors_to_size(device.length,
device.sectorSize) * 1000. -/
def sizeK (env : Env) : ℚ := sectors_to_size (env.length : ℚ) env.sectorSize * 1000

/-- size variable of the __make_root__ geometry code:
sectors_to_size(device.length, device.sectorSize), in MB. -/
def sizeMB (env : Env) : ℚ := sectors_to_size (env.length : ℚ) env.sectorSize

/-- Resolution of a percent string boundary inside __make_root__:
int(size * (int(s[:-1]) / 100)). -/
def resolvePct (size : ℚ) (n : ℤ) : ℚ := ((pyInt (size * ((n : ℚ) / 100))) : ℚ)

/-- Path of the k-th partition created on the device during this run
(parted assigns consecutive numbers on the fresh table). -/
def partPath (dev : String) (k : ℕ) : String := dev ++ toString k

/-- home values treated as no home partition: None, "NULL", "null". -/
def isNullish (h : HomeV) : Prop :=
  h = .noneV ∨ h = .strV "NULL" ∨ h = .strV "null"

instance : DecidablePred isNullish := fun h => by unfold isNullish; infer_instance

/-- home[:-2] for NVMe paths, home[:-1] otherwise: the backing device of a
partition path as computed by partition(). -/
def devCheck (hp : String) : String :=
  if hasNvme hp then pyTake hp (hp.length - 2) else pyTake hp (hp.length - 1)

/-- __generate_return_data__ from the source. -/
def genReturnData (home : HomeV) (efi : Bool) (p1 p2 p3 : Option String) : Parts :=
  { efi := if efi then p1 else none
    root := if efi then p2 else p1
    home := if home ≠ .strV "MAKE" then
        (match home with | .noneV => none | .strV s => some s)
      else if efi then p3 else p2 }

/-! ## RAID preprocessing (partition() lines before the clobber) -/

/-- The conversion and slot check on raid_array at the top of partition():
the strings raid0, raid1 and raid10 (case insensitively) become ints; when
the original raid_type is neither None nor "OEM" and a designated slot "1"
or "2" holds None, raid_type is reset to None; afterwards, when raid_type
is not None, the disks dict is replaced by the list of its non-null
values. -/
def rtAfter (r : RaidIn) : RTState :=
  match r.raid_type with
  | .noneV => .noneV
  | .oemV => .oemV
  | .strV s =>
      if r.disks.any (fun q => (q.1 == "1" || q.1 == "2") && q.2 == none) then .noneV
      else if pyLower s = "raid0" then .intV 0
      else if pyLower s = "raid1" then .intV 1
      else if pyLower s = "raid10" then .intV 10
      else .strV s

def preprocessRaid (r : RaidIn) : RTState × DisksV :=
  if rtAfter r ≠ .noneV then (rtAfter r, .list (r.disks.filterMap Prod.snd))
  else (rtAfter r, .dict r.disks)

/-! ## Free space search (same-device home scenario) -/

/-- The sizes dict built from getFreeSpaceRegions(): keyed by region
length, later regions overwrite earlier ones of equal length. -/
def dictLast (regs : List Region) (l : ℕ) : Option Region :=
  (regs.filter (fun r => r.len = l)).getLast?

/-- sorted(sizes): the distinct region lengths in ascending order. -/
def freeKeys (regs : List Region) : List ℕ :=
  List.insertionSort (· ≤ ·) (regs.map Region.len).dedup

/-- The loop guard sizes[each].getSize() >= 200 on the region stored under
a given length key. -/
def bigEnough (regs : List Region) (sector_size : ℕ) (l : ℕ) : Bool :=
  match dictLast regs l with
  | some r => decide ((200 : ℚ) ≤ r.getSize sector_size)
  | none => false

/-- The scan over sorted(sizes): first key whose region has getSize() of at
least 200 MB; returns the region picked for partition creation, none when
the loop finds nothing. -/
def freeSelect (regs : List Region) (sector_size : ℕ) : Option Region :=
  match (freeKeys regs).find? (bigEnough regs sector_size) with
  | some l => dictLast regs l
  | none => none

/-- End boundary handed to __make_efi__ in the same-device scenario:
sectors_to_size(region.start + sizeToSectors(200, "MB", sectorSize)). -/
def carveEnd (r : Region) (sector_size : ℕ) : ℚ :=
  sectors_to_size ((r.start : ℚ) + sizeToSectors 200 sector_size) sector_size

/-! ## Decision tree branches -/

/-- The small-disk layout, also used for the null-home case: EFI plus root
to 100 percent under UEFI, otherwise a single root from 0 to 100 percent
marked bootable. -/
def fullDiskLayout (env : Env) (root : String) (efi : Bool) (home : HomeV)
    (acts : List Act) : PlanOut :=
  if efi then
    { actions := acts ++ [.mkEfi 0 200, .mkRoot 201 (resolvePct (sizeMB env) 100)]
      result := .ok (genReturnData home efi (some (partPath root 1))
        (some (partPath root 2)) none) }
  else
    { actions := acts ++ [.mkRoot (resolvePct (sizeMB env) 0)
        (resolvePct (sizeMB env) 100), .rootBoot]
      result := .ok (genReturnData home efi (some (partPath root 1)) none none) }

/-- The home == "MAKE" branch: root_end is int((size * 0.35) / 1000 ** 2)
when size >= gb_to_bytes(mdswh), else get_min_root_size(); home takes the
rest of the device. -/
def makeBranch (env : Env) (root : String) (efi : Bool) (home : HomeV)
    (acts : List Act) : PlanOut :=
  let root_end : ℚ :=
    if gb_to_bytes (env.mdswh : ℚ) ≤ sizeK env then
      ((pyInt (sizeK env * (35 / 100) / 1000 ^ 2) : ℤ) : ℚ)
    else (env.minRootSizeRT : ℚ)
  if efi then
    { actions := acts ++ [.mkEfi 0 200, .mkRoot 201 root_end,
        .mkHome root_end (resolvePct (sizeMB env) 100)]
      result := .ok (genReturnData home efi (some (partPath root 1))
        (some (partPath root 2)) (some (partPath root 3))) }
  else
    { actions := acts ++ [.mkRoot (resolvePct (sizeMB env) 0) root_end, .rootBoot,
        .mkHome root_end (resolvePct (sizeMB env) 100)]
      result := .ok (genReturnData home efi (some (partPath root 1))
        (some (partPath root 2)) none) }

/-- The same-device existing-home branch: pick a free region, carve 200 MB
of EFI off its front under UEFI with root taking the remainder, otherwise
root takes the whole region; create nothing when no region fits. -/
def sameDevBranch (env : Env) (root : String) (efi : Bool) (home : HomeV)
    (acts : List Act) : PlanOut :=
  match freeSelect env.freeRegions env.sectorSize with
  | some r =>
      if efi then
        { actions := acts ++ [.mkEfi (r.start : ℚ) (carveEnd r env.sectorSize),
            .mkRoot (carveEnd r env.sectorSize) (r.stop : ℚ)]
          result := .ok (genReturnData home efi (some (partPath root 1))
            (some (partPath root 2)) none) }
      else
        { actions := acts ++ [.mkRoot (r.start : ℚ) (r.stop : ℚ), .rootBoot]
          result := .ok (genReturnData home efi (some (partPath root 1)) none none) }
  | none => { actions := acts, result := .ok (genReturnData home efi none none none) }

/-- The existing-home-elsewhere branch: EFI plus the default root
(201 MB to 40 percent) under UEFI, else a full-device root; the home path
is reused verbatim. -/
def elseBranch (env : Env) (root : String) (efi : Bool) (home : HomeV)
    (acts : List Act) : PlanOut :=
  let p3 : Option String := match home with | .noneV => none | .strV s => some s
  if efi then
    { actions := acts ++ [.mkEfi 0 200, .mkRoot 201 (resolvePct (sizeMB env) 40)]
      result := .ok (genReturnData home efi (some (partPath root 1))
        (some (partPath root 2)) p3) }
  else
    { actions := acts ++ [.mkRoot (resolvePct (sizeMB env) 0)
        (resolvePct (sizeMB env) 100), .rootBoot]
      result := .ok (genReturnData home efi (some (partPath root 1)) none p3) }

/-- Everything of partition() after the clobber/raid phase. -/
def afterClobber (env : Env) (root : String) (efi : Bool) (home : HomeV)
    (acts : List Act) : PlanOut :=
  if sizeK env ≤ LIMITER then fullDiskLayout env root efi home acts
  else if home = .strV "MAKE" then makeBranch env root efi home acts
  else if isNullish home then fullDiskLayout env root efi home acts
  else
    match home with
    | .noneV => fullDiskLayout env root efi home acts
    | .strV hp =>
        if root = devCheck hp then sameDevBranch env root efi home acts
        else elseBranch env root efi home acts

/-- The clobber/raid phase of partition(): clobber when home is null-like
or "MAKE" with no RAID; with a RAID request, clobber, then build the
array, retry once with force on failure, and on repeated failure fall back
to home = None; otherwise (existing home) touch nothing. -/
def raidPhase (env : Env) (root : String) (home : HomeV) (rt : RTState)
    (dv : DisksV) : List Act × Except RaidErr HomeV :=
  if (isNullish home ∨ home = .strV "MAKE") ∧ rt = .noneV then
    ([.clobber root], .ok home)
  else if rt ≠ .noneV then
    match make_raid_array env.exists_ (env.raidBuildOk false) (disksOf dv) rt false with
    | .error e => ([.clobber root], .error e)
    | .ok true => ([.clobber root, .buildRaid (disksOf dv) rt false], .ok home)
    | .ok false =>
        match make_raid_array env.exists_ (env.raidBuildOk true) (disksOf dv) rt true with
        | .error e => ([.clobber root, .buildRaid (disksOf dv) rt false], .error e)
        | .ok true =>
            ([.clobber root, .buildRaid (disksOf dv) rt false,
              .buildRaid (disksOf dv) rt true], .ok home)
        | .ok false =>
            ([.clobber root, .buildRaid (disksOf dv) rt false,
              .buildRaid (disksOf dv) rt true], .ok .noneV)
  else ([], .ok home)

/-- partition() from the source, as a whole. -/
def partition (env : Env) (root : String) (efi : Bool) (home : HomeV)
    (raid : RaidIn) : PlanOut :=
  let pre := preprocessRaid raid
  match raidPhase env root home pre.1 pre.2 with
  | (acts, .error e) => { actions := acts, result := .error e }
  | (acts, .ok home2) => afterClobber env root efi home2 acts

/-- RAID request argument meaning no RAID. -/
def noRaid : RaidIn := ⟨.noneV, []⟩

/-! ## Helper lemmas about the free space search -/

/-- getLast? of a list returns one of its members. -/
theorem lastMem {α : Type} : ∀ {L : List α} {a : α}, L.getLast? = some a → a ∈ L := by
  intro L
  induction L with
  | nil => simp
  | cons x t ih =>
    intro a h
    cases t with
    | nil =>
        have hxa : x = a := by simpa using h
        subst hxa
        simp
    | cons y u =>
        rw [List.getLast?_cons_cons] at h
        exact List.mem_cons_of_mem x (ih h)

/-- getLast? of a nonempty list is some. -/
theorem lastOfNeNil {α : Type} : ∀ {L : List α}, L ≠ [] → ∃ a, L.getLast? = some a := by
  intro L
  induction L with
  | nil => intro h; exact absurd rfl h
  | cons x t ih =>
    intro _
    cases t with
    | nil => exact ⟨x, rfl⟩
    | cons y u =>
        obtain ⟨a, ha⟩ := ih (by simp)
        exact ⟨a, by rw [List.getLast?_cons_cons]; exact ha⟩

/-- A value stored in the sizes dict is a region of the list, with length
equal to its key. -/
theorem dictLast_mem {regs : List Region} {l : ℕ} {r : Region}
    (h : dictLast regs l = some r) : r ∈ regs ∧ r.len = l := by
  unfold dictLast at h
  have hm := lastMem h
  rw [List.mem_filter] at hm
  exact ⟨hm.1, by simpa using hm.2⟩

/-- Every region of the list has an entry of the same length in the sizes
dict. -/
theorem dictLast_of_mem {regs : List Region} {r : Region} (h : r ∈ regs) :
    ∃ r2, dictLast regs r.len = some r2 ∧ r2.len = r.len := by
  have hne : regs.filter (fun x => x.len = r.len) ≠ [] := by
    intro hnil
    have : r ∈ regs.filter (fun x => x.len = r.len) :=
      List.mem_filter.mpr ⟨h, by simp⟩
    rw [hnil] at this
    simp at this
  obtain ⟨r2, hr2⟩ := lastOfNeNil hne
  refine ⟨r2, hr2, ?_⟩
  exact (dictLast_mem hr2).2

/-- The keys scanned by the loop are exactly the region lengths. -/
theorem mem_freeKeys {regs : List Region} {l : ℕ} :
    l ∈ freeKeys regs ↔ ∃ r ∈ regs, r.len = l := by
  unfold freeKeys
  rw [List.mem_insertionSort, List.mem_dedup, List.mem_map]

/-- The key list is sorted ascending. -/
theorem freeKeys_sorted (regs : List Region) : List.Sorted (· ≤ ·) (freeKeys regs) :=
  List.sorted_insertionSort _ _

/-- find? on a list sorted ascending returns a minimum among the members
satisfying the predicate. -/
theorem find_first_sorted {p : ℕ → Bool} :
    ∀ {L : List ℕ}, List.Sorted (· ≤ ·) L →
      ∀ {l : ℕ}, L.find? p = some l → ∀ x ∈ L, p x = true → l ≤ x := by
  intro L
  induction L with
  | nil => intro _ l h; simp at h
  | cons a t ih =>
    intro hs l hf x hx hpx
    rw [List.sorted_cons] at hs
    by_cases hpa : p a = true
    · rw [List.find?_cons_of_pos _ hpa] at hf
      obtain rfl : a = l := by simpa using hf
      rcases List.mem_cons.mp hx with rfl | hxt
      · exact le_refl x
      · exact hs.1 x hxt
    · rw [List.find?_cons_of_neg _ (by simpa using hpa)] at hf
      rcases List.mem_cons.mp hx with rfl | hxt
      · exact absurd hpx hpa
      · exact ih hs.2 hf x hxt hpx

/-- A region returned by the scan has size at least 200 MB, belongs to the
region list, and has minimal length among regions of size at least
200 MB. -/
theorem freeSelect_some_spec {regs : List Region} {ss : ℕ} {r : Region}
    (h : freeSelect regs ss = some r) :
    (200 : ℚ) ≤ r.getSize ss ∧ r ∈ regs
      ∧ ∀ r2 ∈ regs, (200 : ℚ) ≤ r2.getSize ss → r.len ≤ r2.len := by
  unfold freeSelect at h
  cases hf : (freeKeys regs).find? (bigEnough regs ss) with
  | none => rw [hf] at h; simp at h
  | some l =>
    rw [hf] at h
    change dictLast regs l = some r at h
    have hp := List.find?_some hf
    unfold bigEnough at hp
    rw [h] at hp
    simp at hp
    obtain ⟨hmem, hlen⟩ := dictLast_mem h
    refine ⟨hp, hmem, ?_⟩
    intro r2 hr2 h200
    have hk2 : r2.len ∈ freeKeys regs := mem_freeKeys.mpr ⟨r2, hr2, rfl⟩
    have hpred2 : bigEnough regs ss r2.len = true := by
      obtain ⟨r3, hr3, hlen3⟩ := dictLast_of_mem hr2
      unfold bigEnough
      rw [hr3]
      have : r3.getSize ss = r2.getSize ss := by
        unfold Region.getSize; rw [hlen3]
      simp [this, h200]
    have := find_first_sorted (freeKeys_sorted regs) hf r2.len hk2 hpred2
    omega

/-- When the scan finds nothing, every region is smaller than 200 MB. -/
theorem freeSelect_none_spec {regs : List Region} {ss : ℕ}
    (h : freeSelect regs ss = none) : ∀ r ∈ regs, r.getSize ss < 200 := by
  intro r hr
  by_contra hge
  push_neg at hge
  unfold freeSelect at h
  cases hf : (freeKeys regs).find? (bigEnough regs ss) with
  | some l =>
    rw [hf] at h
    change dictLast regs l = none at h
    have hp := List.find?_some hf
    unfold bigEnough at hp
    rw [h] at hp
    simp at hp
  | none =>
    have hall := List.find?_eq_none.mp hf r.len (mem_freeKeys.mpr ⟨r, hr, rfl⟩)
    obtain ⟨r3, hr3, hlen3⟩ := dictLast_of_mem hr
    apply hall
    unfold bigEnough
    rw [hr3]
    have : r3.getSize ss = r.getSize ss := by
      unfold Region.getSize; rw [hlen3]
    simp [this, hge]

/-! ## Helper lemmas about the planner branches -/

/-- Whether make_raid_array passes validation does not depend on the build
outcome or the force flag. -/
theorem mra_ok_all (ex : String → Bool) (l : List String) (rt : RTState)
    {b f x : Bool} (b2 f2 : Bool)
    (h : make_raid_array ex b l rt f = .ok x) :
    make_raid_array ex b2 l rt f2 = .ok b2 := by
  cases rt with
  | intV n =>
      simp only [make_raid_array, dictKeyOf] at h ⊢
      by_cases hv : validRaidInt n
      · simp only [if_pos hv] at h ⊢
        split_ifs at h ⊢ <;>
          (cases hfind : l.find? (fun d => !(ex d)) with
            | some d => simp [hfind] at h
            | none => simp [hfind] at h ⊢)
      · simp [if_neg hv] at h
  | noneV => simp [make_raid_array, dictKeyOf] at h
  | oemV => simp [make_raid_array, dictKeyOf] at h
  | strV s => simp [make_raid_array, dictKeyOf] at h

/-- An exception escaping the raid phase leaves exactly the clobber of the
destination on record. -/
theorem raidPhase_error_acts {env : Env} {root : String} {home : HomeV}
    {rt : RTState} {dv : DisksV} {acts : List Act} {e : RaidErr}
    (h : raidPhase env root home rt dv = (acts, .error e)) :
    acts = [Act.clobber root] := by
  unfold raidPhase at h
  split_ifs at h with hc1 hc2
  · exact absurd (Prod.ext_iff.mp h).2 (by simp)
  · cases hm1 : make_raid_array env.exists_ (env.raidBuildOk false) (disksOf dv) rt false with
    | error e1 =>
        rw [hm1] at h
        exact ((Prod.ext_iff.mp h).1).symm
    | ok b1 =>
        rw [hm1] at h
        cases b1 with
        | true => exact absurd (Prod.ext_iff.mp h).2 (by simp)
        | false =>
            cases hm2 : make_raid_array env.exists_ (env.raidBuildOk true) (disksOf dv) rt true with
            | error e2 =>
                have hok := mra_ok_all env.exists_ (disksOf dv) rt (env.raidBuildOk true) true hm1
                rw [hok] at hm2
                exact absurd hm2 (by simp)
            | ok b2 =>
                rw [hm2] at h
                cases b2 <;> exact absurd (Prod.ext_iff.mp h).2 (by simp)
  · exact absurd (Prod.ext_iff.mp h).2 (by simp)

/-- A successful raid phase hands on either the original home argument or
None (the fallback after a failed forced rebuild). -/
theorem raidPhase_ok_home {env : Env} {root : String} {home : HomeV}
    {rt : RTState} {dv : DisksV} {acts : List Act} {h2 : HomeV}
    (h : raidPhase env root home rt dv = (acts, .ok h2)) :
    h2 = home ∨ h2 = .noneV := by
  unfold raidPhase at h
  split_ifs at h with hc1 hc2
  · have := (Prod.ext_iff.mp h).2
    simp at this
    exact Or.inl this.symm
  · cases hm1 : make_raid_array env.exists_ (env.raidBuildOk false) (disksOf dv) rt false with
    | error e1 => rw [hm1] at h; exact absurd (Prod.ext_iff.mp h).2 (by simp)
    | ok b1 =>
        rw [hm1] at h
        cases b1 with
        | true =>
            have := (Prod.ext_iff.mp h).2
            simp at this
            exact Or.inl this.symm
        | false =>
            cases hm2 : make_raid_array env.exists_ (env.raidBuildOk true) (disksOf dv) rt true with
            | error e2 => rw [hm2] at h; exact absurd (Prod.ext_iff.mp h).2 (by simp)
            | ok b2 =>
                rw [hm2] at h
                cases b2 with
                | true =>
                    have := (Prod.ext_iff.mp h).2
                    simp at this
                    exact Or.inl this.symm
                | false =>
                    have := (Prod.ext_iff.mp h).2
                    simp at this
                    exact Or.inr this.symm
  · have := (Prod.ext_iff.mp h).2
    simp at this
    exact Or.inl this.symm

/-- The raid phase with no RAID request: clobber exactly when home is
null-like or "MAKE". -/
theorem raidPhase_rtNone (env : Env) (root : String) (home : HomeV) (dv : DisksV) :
    raidPhase env root home .noneV dv
      = if isNullish home ∨ home = .strV "MAKE" then ([.clobber root], .ok home)
        else ([], .ok home) := by
  unfold raidPhase
  simp

/-- The raid phase when both the plain and the forced build fail: two build
attempts on record and home degraded to None. -/
theorem raidPhase_build_fail {env : Env} {root : String} {home : HomeV}
    {rt : RTState} {dv : DisksV}
    (hrt : rt ≠ .noneV)
    (h1 : make_raid_array env.exists_ (env.raidBuildOk false) (disksOf dv) rt false = .ok false)
    (h2 : make_raid_array env.exists_ (env.raidBuildOk true) (disksOf dv) rt true = .ok false) :
    raidPhase env root home rt dv
      = ([.clobber root, .buildRaid (disksOf dv) rt false, .buildRaid (disksOf dv) rt true],
         .ok .noneV) := by
  have hc1 : ¬ ((isNullish home ∨ home = .strV "MAKE") ∧ rt = .noneV) := fun hc => hrt hc.2
  unfold raidPhase
  rw [if_neg hc1, if_pos hrt]
  simp only [h1, h2]

/-- fullDiskLayout always returns a dict with ROOT set. -/
theorem fullDisk_root_some (env : Env) (root : String) (efi : Bool) (home : HomeV)
    (acts : List Act) :
    ∃ s p, resultParts (fullDiskLayout env root efi home acts) = some p ∧ p.root = some s := by
  cases efi
  · exact ⟨partPath root 1, _, rfl, rfl⟩
  · exact ⟨partPath root 2, _, rfl, rfl⟩

/-- makeBranch always returns a dict with ROOT set. -/
theorem makeBranch_root_some (env : Env) (root : String) (efi : Bool) (home : HomeV)
    (acts : List Act) :
    ∃ s p, resultParts (makeBranch env root efi home acts) = some p ∧ p.root = some s := by
  cases efi
  · exact ⟨partPath root 1, _, rfl, rfl⟩
  · exact ⟨partPath root 2, _, rfl, rfl⟩

/-- elseBranch always returns a dict with ROOT set. -/
theorem elseBranch_root_some (env : Env) (root : String) (efi : Bool) (home : HomeV)
    (acts : List Act) :
    ∃ s p, resultParts (elseBranch env root efi home acts) = some p ∧ p.root = some s := by
  cases efi
  · exact ⟨partPath root 1, _, rfl, rfl⟩
  · exact ⟨partPath root 2, _, rfl, rfl⟩

/-- sameDevBranch returns a dict with ROOT set when a region was found. -/
theorem sameDev_root_some (env : Env) (root : String) (efi : Bool) (home : HomeV)
    (acts : List Act) (r : Region)
    (hsel : freeSelect env.freeRegions env.sectorSize = some r) :
    ∃ s p, resultParts (sameDevBranch env root efi home acts) = some p ∧ p.root = some s := by
  unfold sameDevBranch
  rw [hsel]
  cases efi
  · exact ⟨partPath root 1, _, rfl, rfl⟩
  · exact ⟨partPath root 2, _, rfl, rfl⟩

/-- sameDevBranch with no usable region creates nothing and returns the
bare dict. -/
theorem sameDev_none (env : Env) (root : String) (efi : Bool) (home : HomeV)
    (acts : List Act)
    (hsel : freeSelect env.freeRegions env.sectorSize = none) :
    resultParts (sameDevBranch env root efi home acts)
        = some (genReturnData home efi none none none)
    ∧ (sameDevBranch env root efi home acts).actions = acts := by
  unfold sameDevBranch
  rw [hsel]
  exact ⟨rfl, rfl⟩

/-- fullDiskLayout only appends creation actions, never a build attempt. -/
theorem fullDisk_filter (env : Env) (root : String) (efi : Bool) (home : HomeV)
    (acts : List Act) :
    ((fullDiskLayout env root efi home acts).actions).filter isBuildA
      = acts.filter isBuildA := by
  cases efi <;> simp [fullDiskLayout, isBuildA, List.filter_append]

/-- makeBranch only appends creation actions, never a build attempt. -/
theorem makeBranch_filter (env : Env) (root : String) (efi : Bool) (home : HomeV)
    (acts : List Act) :
    ((makeBranch env root efi home acts).actions).filter isBuildA
      = acts.filter isBuildA := by
  cases efi <;> simp [makeBranch, isBuildA, List.filter_append]

/-- elseBranch only appends creation actions, never a build attempt. -/
theorem elseBranch_filter (env : Env) (root : String) (efi : Bool) (home : HomeV)
    (acts : List Act) :
    ((elseBranch env root efi home acts).actions).filter isBuildA
      = acts.filter isBuildA := by
  cases efi <;> simp [elseBranch, isBuildA, List.filter_append]

/-- sameDevBranch only appends creation actions, never a build attempt. -/
theorem sameDev_filter (env : Env) (root : String) (efi : Bool) (home : HomeV)
    (acts : List Act) :
    ((sameDevBranch env root efi home acts).actions).filter isBuildA
      = acts.filter isBuildA := by
  unfold sameDevBranch
  cases hsel : freeSelect env.freeRegions env.sectorSize with
  | none => simp
  | some r => cases efi <;> simp [isBuildA, List.filter_append]

/-- The planning stage after the clobber/raid phase never records a build
attempt. -/
theorem afterClobber_filter_build (env : Env) (root : String) (efi : Bool)
    (home : HomeV) (acts : List Act) :
    ((afterClobber env root efi home acts).actions).filter isBuildA
      = acts.filter isBuildA := by
  unfold afterClobber
  split_ifs with hsm hmk hnul
  · exact fullDisk_filter env root efi home acts
  · exact makeBranch_filter env root efi home acts
  · exact fullDisk_filter env root efi home acts
  · cases home with
    | noneV => exact fullDisk_filter env root efi .noneV acts
    | strV hp =>
        show ((if root = devCheck hp then sameDevBranch env root efi (.strV hp) acts
            else elseBranch env root efi (.strV hp) acts).actions).filter isBuildA
          = acts.filter isBuildA
        split_ifs with hdev
        · exact sameDev_filter env root efi (.strV hp) acts
        · exact elseBranch_filter env root efi (.strV hp) acts

/-- The planning stage after the clobber/raid phase always returns a
dict. -/
theorem afterClobber_ok (env : Env) (root : String) (efi : Bool) (home : HomeV)
    (acts : List Act) :
    ∃ p, resultParts (afterClobber env root efi home acts) = some p := by
  unfold afterClobber
  split_ifs with hsm hmk hnul
  · cases efi <;> exact ⟨_, rfl⟩
  · cases efi <;> exact ⟨_, rfl⟩
  · cases efi <;> exact ⟨_, rfl⟩
  · cases home with
    | noneV => cases efi <;> exact ⟨_, rfl⟩
    | strV hp =>
        show ∃ p, resultParts (if root = devCheck hp
            then sameDevBranch env root efi (.strV hp) acts
            else elseBranch env root efi (.strV hp) acts) = some p
        split_ifs with hdev
        · cases hsel : freeSelect env.freeRegions env.sectorSize with
          | some r =>
              obtain ⟨s, p, hp2, _⟩ := sameDev_root_some env root efi (.strV hp) acts r hsel
              exact ⟨p, hp2⟩
          | none => exact ⟨_, (sameDev_none env root efi (.strV hp) acts hsel).1⟩
        · cases efi <;> exact ⟨_, rfl⟩

/-- When the dict returned by the later planning stage has no ROOT entry,
the run went through the same-device scenario with no usable free region,
past the small-disk check. -/
theorem afterClobber_root_none (env : Env) (root : String) (efi : Bool)
    (home : HomeV) (acts : List Act) (p : Parts)
    (hres : resultParts (afterClobber env root efi home acts) = some p)
    (hroot : p.root = none) :
    ∃ hp, home = .strV hp ∧ ¬ isNullish home ∧ home ≠ .strV "MAKE"
      ∧ root = devCheck hp ∧ freeSelect env.freeRegions env.sectorSize = none
      ∧ ¬ sizeK env ≤ LIMITER := by
  unfold afterClobber at hres
  split_ifs at hres with hsm hmk hnul
  · obtain ⟨s, q, hq, hqr⟩ := fullDisk_root_some env root efi home acts
    rw [hq] at hres
    injection hres with hqp
    subst hqp
    rw [hqr] at hroot
    exact Option.noConfusion hroot
  · obtain ⟨s, q, hq, hqr⟩ := makeBranch_root_some env root efi home acts
    rw [hq] at hres
    injection hres with hqp
    subst hqp
    rw [hqr] at hroot
    exact Option.noConfusion hroot
  · obtain ⟨s, q, hq, hqr⟩ := fullDisk_root_some env root efi home acts
    rw [hq] at hres
    injection hres with hqp
    subst hqp
    rw [hqr] at hroot
    exact Option.noConfusion hroot
  · cases home with
    | noneV => exact absurd (Or.inl rfl) hnul
    | strV hp =>
        change resultParts (if root = devCheck hp
            then sameDevBranch env root efi (.strV hp) acts
            else elseBranch env root efi (.strV hp) acts) = some p at hres
        by_cases hdev : root = devCheck hp
        · rw [if_pos hdev] at hres
          cases hsel : freeSelect env.freeRegions env.sectorSize with
          | some r =>
              obtain ⟨s, q, hq, hqr⟩ := sameDev_root_some env root efi (.strV hp) acts r hsel
              rw [hq] at hres
              injection hres with hqp
              subst hqp
              rw [hqr] at hroot
              exact Option.noConfusion hroot
          | none => exact ⟨hp, rfl, hnul, hmk, hdev, rfl, hsm⟩
        · rw [if_neg hdev] at hres
          obtain ⟨s, q, hq, hqr⟩ := elseBranch_root_some env root efi (.strV hp) acts
          rw [hq] at hres
          injection hres with hqp
          subst hqp
          rw [hqr] at hroot
          exact Option.noConfusion hroot

/-- A run whose later planning stage starts with home degraded to None
returns a dict with no HOME entry. -/
theorem afterClobber_home_none (env : Env) (root : String) (efi : Bool)
    (acts : List Act) :
    ∃ p, resultParts (afterClobber env root efi .noneV acts) = some p
      ∧ p.home = none := by
  unfold afterClobber
  split_ifs with hsm hmk hnul
  · cases efi <;> exact ⟨_, rfl, rfl⟩
  · exact absurd hmk (by simp)
  · cases efi <;> exact ⟨_, rfl, rfl⟩
  · exact absurd (Or.inl rfl) hnul

/-! ## Partition level helper lemmas and concrete environments -/

/-- First component of the preprocessing result. -/
theorem preprocess_fst (r : RaidIn) : (preprocessRaid r).1 = rtAfter r := by
  unfold preprocessRaid
  split_ifs <;> rfl

/-- partition() reduces to the later planning stage when the raid phase
hands over. -/
theorem partition_eq_afterClobber {env : Env} {root : String} {efi : Bool}
    {home : HomeV} {raid : RaidIn} {acts : List Act} {home2 : HomeV}
    (hrp : raidPhase env root home (preprocessRaid raid).1 (preprocessRaid raid).2
      = (acts, .ok home2)) :
    partition env root efi home raid = afterClobber env root efi home2 acts := by
  simp only [partition]
  rw [hrp]

/-- partition() stops with the exception when the raid phase raises. -/
theorem partition_eq_error {env : Env} {root : String} {efi : Bool}
    {home : HomeV} {raid : RaidIn} {acts : List Act} {e : RaidErr}
    (hrp : raidPhase env root home (preprocessRaid raid).1 (preprocessRaid raid).2
      = (acts, .error e)) :
    partition env root efi home raid = { actions := acts, result := .error e } := by
  simp only [partition]
  rw [hrp]

/-- With the RAID request gone after preprocessing, no build command is
ever issued. -/
theorem partition_rtNone_nobuild (env : Env) (root : String) (efi : Bool)
    (home : HomeV) (raid : RaidIn)
    (hrt : (preprocessRaid raid).1 = .noneV) :
    ((partition env root efi home raid).actions).filter isBuildA = [] := by
  have hrp := raidPhase_rtNone env root home (preprocessRaid raid).2
  rw [← hrt] at hrp
  by_cases hc : isNullish home ∨ home = .strV "MAKE"
  · rw [if_pos hc] at hrp
    rw [partition_eq_afterClobber hrp, afterClobber_filter_build]
    simp [isBuildA]
  · rw [if_neg hc] at hrp
    rw [partition_eq_afterClobber hrp, afterClobber_filter_build]
    simp

/-- A 64 GB destination device (125000000 sectors of 512 bytes) with every
member path present and successful builds. -/
def envA : Env := ⟨125000000, 512, [], 0, 128, fun _ => true, fun _ => true⟩

/-- A 64 GB destination device on a system where no device file exists. -/
def envNoExist : Env := ⟨125000000, 512, [], 0, 128, fun _ => false, fun _ => true⟩

/-- A tiny destination device on a system where every mkfs.btrfs call
fails. -/
def envBuildFail : Env := ⟨1000, 512, [], 0, 128, fun _ => true, fun _ => false⟩

/-- A large destination device carrying a table with no free regions. -/
def envNoSpace : Env := ⟨100000000000, 512, [], 0, 128, fun _ => true, fun _ => true⟩

/-- A large destination device carrying a table with one big free
region. -/
def envFS : Env :=
  ⟨100000000000, 512, [⟨2048, 500000000, 499997953⟩], 0, 128, fun _ => true, fun _ => true⟩

/-! ## Claim C1 -/

instance {ε α : Type} [DecidableEq ε] [DecidableEq α] : DecidableEq (Except ε α)
  | .error e, .error f =>
      if h : e = f then isTrue (by rw [h]) else isFalse (by simp [h])
  | .error _, .ok _ => isFalse (by simp)
  | .ok _, .error _ => isFalse (by simp)
  | .ok a, .ok b =>
      if h : a = b then isTrue (by rw [h]) else isFalse (by simp [h])

/-- C1 counterexample: a RAID0 request with a single member disk raises a
ValueError inside make_raid_array, yet the destination device has already
been clobbered when the error is raised, so a destructive disk operation
does precede the validation error. -/
theorem c1_counterexample_clobber_precedes :
    isValueErrorRes (partition envA "/dev/sda" false .noneV
        ⟨.strV "RAID0", [("1", some "/dev/sdb")]⟩).result = true
    ∧ (partition envA "/dev/sda" false .noneV
        ⟨.strV "RAID0", [("1", some "/dev/sdb")]⟩).actions = [Act.clobber "/dev/sda"] := by
  have hrp : raidPhase envA "/dev/sda" .noneV
      (preprocessRaid ⟨.strV "RAID0", [("1", some "/dev/sdb")]⟩).1
      (preprocessRaid ⟨.strV "RAID0", [("1", some "/dev/sdb")]⟩).2
    = ([.clobber "/dev/sda"], .error (.valueError "Not enough disks")) := by decide
  rw [partition_eq_error hrp]
  exact ⟨rfl, rfl⟩

/-- C1 amended: every error escaping partition() (invalid RAID type, wrong
member count, missing member device) is raised before any array-creation
command and before any partition creation, but after the one clobber of
the destination device, which is the only destructive action on record. -/
theorem c1_raid_validation_errors :
    ∀ (env : Env) (root : String) (efi : Bool) (home : HomeV) (raid : RaidIn),
      isErrRes (partition env root efi home raid).result = true →
      (partition env root efi home raid).actions = [Act.clobber root] := by
  intro env root efi home raid herr
  rcases hrp : raidPhase env root home (preprocessRaid raid).1 (preprocessRaid raid).2
    with ⟨acts, exc⟩
  cases exc with
  | error e =>
      rw [partition_eq_error hrp]
      exact raidPhase_error_acts hrp
  | ok home2 =>
      exfalso
      rw [partition_eq_afterClobber hrp] at herr
      obtain ⟨p, hp2⟩ := afterClobber_ok env root efi home2 acts
      unfold resultParts at hp2
      cases hres : (afterClobber env root efi home2 acts).result with
      | ok q => rw [hres] at herr; simp [isErrRes] at herr
      | error e => rw [hres] at hp2; simp at hp2

/-- C1 witness: a RAID0 request over two member paths that do not exist
raises FileNotFoundError with only the destination clobber on record. -/
theorem c1_raid_validation_errors_witness :
    isErrRes (partition envNoExist "/dev/sdb" false .noneV
        ⟨.strV "RAID0", [("1", some "d1"), ("2", some "d2")]⟩).result = true
    ∧ (partition envNoExist "/dev/sdb" false .noneV
        ⟨.strV "RAID0", [("1", some "d1"), ("2", some "d2")]⟩).actions
      = [Act.clobber "/dev/sdb"] := by
  have hrp : raidPhase envNoExist "/dev/sdb" .noneV
      (preprocessRaid ⟨.strV "RAID0", [("1", some "d1"), ("2", some "d2")]⟩).1
      (preprocessRaid ⟨.strV "RAID0", [("1", some "d1"), ("2", some "d2")]⟩).2
    = ([.clobber "/dev/sdb"], .error (.fileNotFound "d1")) := by decide
  have herr : isErrRes (partition envNoExist "/dev/sdb" false .noneV
      ⟨.strV "RAID0", [("1", some "d1"), ("2", some "d2")]⟩).result = true := by
    rw [partition_eq_error hrp]
    rfl
  exact ⟨herr,
    c1_raid_validation_errors envNoExist "/dev/sdb" false .noneV
      ⟨.strV "RAID0", [("1", some "d1"), ("2", some "d2")]⟩ herr⟩

/-! ## Claims C4 and C5 -/

/-- Python int() is the identity on integers. -/
theorem pyInt_intCast (n : ℤ) : pyInt (n : ℚ) = n := by
  unfold pyInt
  split_ifs with h
  · exact Int.floor_intCast n
  · exact Int.ceil_intCast n

/-- The 64 GB device passes the small-disk test: its size variable is the
byte count divided by 1000 (kB, not bytes), so the comparison against the
32 GB byte limit succeeds. -/
theorem envA_small : sizeK envA ≤ LIMITER := by
  norm_num [sizeK, sectors_to_size, LIMITER, gb_to_bytes, envA]

/-- Resolution of the boundary string "0%" on the 64 GB device. -/
theorem envA_pct0 : resolvePct (sizeMB envA) 0 = 0 := by
  unfold resolvePct
  have harg : sizeMB envA * (((0 : ℤ) : ℚ) / 100) = ((0 : ℤ) : ℚ) := by
    norm_num
  rw [harg, pyInt_intCast]
  norm_num

/-- Resolution of the boundary string "100%" on the 64 GB device. -/
theorem envA_pct100 : resolvePct (sizeMB envA) 100 = 64000 := by
  unfold resolvePct
  have harg : sizeMB envA * (((100 : ℤ) : ℚ) / 100) = ((64000 : ℤ) : ℚ) := by
    norm_num [sizeMB, sectors_to_size, envA]
  rw [harg, pyInt_intCast]
  norm_num

/-- C4: the 64 GB device (125000000 sectors of 512 bytes) is strictly
larger than 32 GB, yet the planner size variable (bytes / 1000 compared
against a byte limit) passes the small-disk test and the run produces the
single full-disk layout: the small-disk branch is taken for devices far
beyond 32 GB, contradicting the claimed 32 GB cut. -/
theorem c4_limiter_unit_bug :
    ((envA.length : ℚ) * envA.sectorSize = 64 * 10 ^ 9)
    ∧ ¬ ((envA.length : ℚ) * envA.sectorSize ≤ 32 * 10 ^ 9)
    ∧ sizeK envA ≤ LIMITER
    ∧ resultParts (partition envA "/dev/sda" true (.strV "MAKE") noRaid)
        = some ⟨some "/dev/sda1", some "/dev/sda2", none⟩ := by
  refine ⟨by norm_num [envA], by norm_num [envA], envA_small, ?_⟩
  have hrp : raidPhase envA "/dev/sda" (.strV "MAKE")
      (preprocessRaid noRaid).1 (preprocessRaid noRaid).2
    = ([.clobber "/dev/sda"], .ok (.strV "MAKE")) := by decide
  rw [partition_eq_afterClobber hrp]
  unfold afterClobber
  rw [if_pos envA_small]
  rfl

/-- C5: on the 64 GB device with home policy MAKE (a size between 32 GB
and the 128 GB mdswh threshold), the run never reaches the root-sizing
code: the small-disk branch produces one full-device root, no home
partition is created and the returned dict carries no HOME path. -/
theorem c5_make_home_shadowed_by_limiter_bug :
    ((envA.length : ℚ) * envA.sectorSize = 64 * 10 ^ 9)
    ∧ envA.mdswh = 128
    ∧ (partition envA "/dev/sda" false (.strV "MAKE") noRaid).actions
        = [.clobber "/dev/sda", .mkRoot 0 64000, .rootBoot]
    ∧ resultParts (partition envA "/dev/sda" false (.strV "MAKE") noRaid)
        = some ⟨none, some "/dev/sda1", none⟩ := by
  refine ⟨by norm_num [envA], rfl, ?_, ?_⟩
  all_goals {
    have hrp : raidPhase envA "/dev/sda" (.strV "MAKE")
        (preprocessRaid noRaid).1 (preprocessRaid noRaid).2
      = ([.clobber "/dev/sda"], .ok (.strV "MAKE")) := by decide
    rw [partition_eq_afterClobber hrp]
    unfold afterClobber
    rw [if_pos envA_small]
    simp [fullDiskLayout, envA_pct0, envA_pct100]
    try rfl
  }

/-! ## Claim C7 -/

/-- Run of the planner on a big device whose existing table has no free
region, with the home path on the destination device itself: nothing is
created and the dict comes back with ROOT null. -/
theorem envNoSpace_run :
    resultParts (partition envNoSpace "/dev/sda" false (.strV "/dev/sda3") noRaid)
      = some ⟨none, none, some "/dev/sda3"⟩ := by
  have hrp : raidPhase envNoSpace "/dev/sda" (.strV "/dev/sda3")
      (preprocessRaid noRaid).1 (preprocessRaid noRaid).2
    = ([], .ok (.strV "/dev/sda3")) := by decide
  rw [partition_eq_afterClobber hrp]
  have hns : ¬ sizeK envNoSpace ≤ LIMITER := by
    norm_num [sizeK, sectors_to_size, LIMITER, gb_to_bytes, envNoSpace]
  unfold afterClobber
  rw [if_neg hns, if_neg (by decide : ¬ (HomeV.strV "/dev/sda3" = HomeV.strV "MAKE")),
    if_neg (by decide : ¬ isNullish (HomeV.strV "/dev/sda3"))]
  change resultParts (if "/dev/sda" = devCheck "/dev/sda3"
      then sameDevBranch envNoSpace "/dev/sda" false (.strV "/dev/sda3") []
      else elseBranch envNoSpace "/dev/sda" false (.strV "/dev/sda3") []) = _
  rw [if_pos (by decide : "/dev/sda" = devCheck "/dev/sda3")]
  exact (sameDev_none envNoSpace "/dev/sda" false (.strV "/dev/sda3") [] rfl).1

/-- C7 counterexample: the same-device existing-home run with no free
region terminates normally but returns a dict whose ROOT entry is null, so
ROOT is not always a non-null partition path. -/
theorem c7_counterexample_null_root :
    resultParts (partition envNoSpace "/dev/sda" false (.strV "/dev/sda3") noRaid)
      = some ⟨none, none, some "/dev/sda3"⟩
    ∧ Parts.root ⟨none, none, some "/dev/sda3"⟩ = none :=
  ⟨envNoSpace_run, rfl⟩

/-- C7 amended: every terminal run returns a dict with exactly the keys
EFI, ROOT and HOME; ROOT is a non-null path except when the run went
through the same-device existing-home scenario past the small-disk check
and found no free region of at least 200 MB, in which case ROOT (and EFI)
are null. -/
theorem c7_root_null_only_on_no_space :
    ∀ (env : Env) (root : String) (efi : Bool) (home : HomeV) (raid : RaidIn)
      (p : Parts),
      resultParts (partition env root efi home raid) = some p →
      p.root = none →
      ∃ hp, home = .strV hp ∧ ¬ isNullish home ∧ home ≠ .strV "MAKE"
        ∧ root = devCheck hp ∧ freeSelect env.freeRegions env.sectorSize = none
        ∧ ¬ sizeK env ≤ LIMITER := by
  intro env root efi home raid p hres hroot
  rcases hrp : raidPhase env root home (preprocessRaid raid).1 (preprocessRaid raid).2
    with ⟨acts, exc⟩
  cases exc with
  | error e =>
      rw [partition_eq_error hrp] at hres
      exact Option.noConfusion hres
  | ok home2 =>
      rw [partition_eq_afterClobber hrp] at hres
      obtain ⟨hp, hhp, hnul, hmk, hdev, hsel, hsm⟩ :=
        afterClobber_root_none env root efi home2 acts p hres hroot
      rcases raidPhase_ok_home hrp with heq | heq
      · subst heq
        exact ⟨hp, hhp, hnul, hmk, hdev, hsel, hsm⟩
      · rw [heq] at hhp
        exact HomeV.noConfusion hhp

/-- C7 witness: the amended statement applied to the no-free-space run. -/
theorem c7_root_null_only_on_no_space_witness :
    ∃ hp, HomeV.strV "/dev/sda3" = HomeV.strV hp
      ∧ ¬ isNullish (HomeV.strV "/dev/sda3")
      ∧ HomeV.strV "/dev/sda3" ≠ HomeV.strV "MAKE"
      ∧ "/dev/sda" = devCheck hp
      ∧ freeSelect envNoSpace.freeRegions envNoSpace.sectorSize = none
      ∧ ¬ sizeK envNoSpace ≤ LIMITER :=
  c7_root_null_only_on_no_space envNoSpace "/dev/sda" false (.strV "/dev/sda3")
    noRaid ⟨none, none, some "/dev/sda3"⟩ envNoSpace_run rfl

/-! ## Claim C8 -/

/-- C8: when the preprocessed RAID request survives (raid_type not None)
and both the plain build and the forced build fail, the run records
exactly two build attempts, the second with force enabled, then continues
to a normal dict whose HOME entry is null. -/
theorem c8_raid_retry_once_then_no_home :
    ∀ (env : Env) (root : String) (efi : Bool) (home : HomeV) (raid : RaidIn),
      (preprocessRaid raid).1 ≠ .noneV →
      make_raid_array env.exists_ (env.raidBuildOk false)
          (disksOf (preprocessRaid raid).2) (preprocessRaid raid).1 false = .ok false →
      make_raid_array env.exists_ (env.raidBuildOk true)
          (disksOf (preprocessRaid raid).2) (preprocessRaid raid).1 true = .ok false →
      ((partition env root efi home raid).actions).filter isBuildA
          = [.buildRaid (disksOf (preprocessRaid raid).2) (preprocessRaid raid).1 false,
             .buildRaid (disksOf (preprocessRaid raid).2) (preprocessRaid raid).1 true]
      ∧ ∃ p, resultParts (partition env root efi home raid) = some p
          ∧ p.home = none := by
  intro env root efi home raid hrt h1 h2
  have hrp := @raidPhase_build_fail env root home _ _ hrt h1 h2
  rw [partition_eq_afterClobber hrp]
  constructor
  · rw [afterClobber_filter_build]
    simp [isBuildA]
  · exact afterClobber_home_none env root efi _

/-- C8 witness: a RAID1 request over two existing member disks on a system
where every mkfs.btrfs call fails. -/
theorem c8_raid_retry_once_then_no_home_witness :
    ((partition envBuildFail "/dev/sda" false .noneV
        ⟨.strV "RAID1", [("1", some "/dev/sdb"), ("2", some "/dev/sdc")]⟩).actions).filter
          isBuildA
      = [.buildRaid ["/dev/sdb", "/dev/sdc"] (.intV 1) false,
         .buildRaid ["/dev/sdb", "/dev/sdc"] (.intV 1) true]
    ∧ ∃ p, resultParts (partition envBuildFail "/dev/sda" false .noneV
        ⟨.strV "RAID1", [("1", some "/dev/sdb"), ("2", some "/dev/sdc")]⟩) = some p
        ∧ p.home = none :=
  c8_raid_retry_once_then_no_home envBuildFail "/dev/sda" false .noneV
    ⟨.strV "RAID1", [("1", some "/dev/sdb"), ("2", some "/dev/sdc")]⟩
    (by decide) (by decide) (by decide)

/-! ## Claim C9 -/

/-- C9: for a RAID request whose type is a string (neither None nor OEM),
a null designated slot "1" or "2" resets raid_type to None before any
build is attempted, and no build command is ever issued in such a run;
whenever the request survives preprocessing, the member list handed to the
builder is exactly the list of non-null slot values. -/
theorem c9_null_slot_abandons_raid :
    ∀ (s : String) (ds : List (String × Option String)),
      ((∃ q ∈ ds, (q.1 = "1" ∨ q.1 = "2") ∧ q.2 = none) →
        (preprocessRaid ⟨.strV s, ds⟩).1 = .noneV
        ∧ ∀ (env : Env) (root : String) (efi : Bool) (home : HomeV),
            ((partition env root efi home ⟨.strV s, ds⟩).actions).filter isBuildA = [])
      ∧ (∀ r : RaidIn, (preprocessRaid r).1 ≠ .noneV →
          (preprocessRaid r).2 = .list (r.disks.filterMap Prod.snd)) := by
  intro s ds
  constructor
  · intro hslot
    have hany : ds.any (fun q => (q.1 == "1" || q.1 == "2") && q.2 == none) = true := by
      rw [List.any_eq_true]
      obtain ⟨q, hq, hq12, hqnone⟩ := hslot
      refine ⟨q, hq, ?_⟩
      rcases hq12 with h | h <;> simp [h, hqnone]
    have hpre : (preprocessRaid ⟨.strV s, ds⟩).1 = .noneV := by
      rw [preprocess_fst]
      simp [rtAfter, hany]
    exact ⟨hpre, fun env root efi home =>
      partition_rtNone_nobuild env root efi home ⟨.strV s, ds⟩ hpre⟩
  · intro r hne
    rw [preprocess_fst] at hne
    unfold preprocessRaid
    rw [if_pos hne]

/-- C9 witness: slot "1" unset on a RAID1 request abandons the array with
no build command issued, while a surviving RAID5 request hands on the
filtered member list. -/
theorem c9_null_slot_abandons_raid_witness :
    (preprocessRaid ⟨.strV "RAID1", [("1", none), ("2", some "/dev/sdc")]⟩).1 = .noneV
    ∧ ((partition envA "/dev/sda" false .noneV
          ⟨.strV "RAID1", [("1", none), ("2", some "/dev/sdc")]⟩).actions).filter
        isBuildA = []
    ∧ (preprocessRaid ⟨.strV "RAID5", [("1", some "/dev/sdb")]⟩).2
        = .list ["/dev/sdb"] := by
  have h := c9_null_slot_abandons_raid "RAID1" [("1", none), ("2", some "/dev/sdc")]
  obtain ⟨h1, h2⟩ := h.1 (by simp)
  refine ⟨h1, h2 envA "/dev/sda" false .noneV, ?_⟩
  have h3 := (c9_null_slot_abandons_raid "RAID5" []).2
    ⟨.strV "RAID5", [("1", some "/dev/sdb")]⟩ (by decide)
  simpa using h3

/-! ## Claim C6 -/

/-- C6: the free-space scan sorts the region lengths ascending and picks
the first region of at least 200 MB, so the picked region has size at
least 200 MB, a region under 200 MB is never picked, and the pick has the
least length among the fitting regions; on the lengths [250, 50, 180] MB
the 250 MB region is picked; in the same-device scenario the planner
carves a 200 MB EFI area off the front of the picked region with root
taking the remainder under UEFI (the whole region otherwise), and when no
region fits, nothing at all is created and the dict comes back with EFI
and ROOT null. -/
theorem c6_free_space_search :
    (∀ (regs : List Region) (ss : ℕ) (r : Region),
        freeSelect regs ss = some r →
          (200 : ℚ) ≤ r.getSize ss ∧ r ∈ regs
          ∧ ∀ r2 ∈ regs, (200 : ℚ) ≤ r2.getSize ss → r.len ≤ r2.len)
    ∧ (∀ (regs : List Region) (ss : ℕ),
        freeSelect regs ss = none → ∀ r ∈ regs, r.getSize ss < 200)
    ∧ freeSelect [⟨1000, 1249, 250⟩, ⟨100, 149, 50⟩, ⟨300, 479, 180⟩] 1000000
        = some ⟨1000, 1249, 250⟩
    ∧ (∀ (env : Env) (root hp : String) (efi : Bool),
        ¬ sizeK env ≤ LIMITER → ¬ isNullish (.strV hp) → hp ≠ "MAKE" →
        root = devCheck hp →
          (∀ r, freeSelect env.freeRegions env.sectorSize = some r →
            (partition env root true (.strV hp) noRaid).actions
              = [.mkEfi (r.start : ℚ) (carveEnd r env.sectorSize),
                 .mkRoot (carveEnd r env.sectorSize) (r.stop : ℚ)]
            ∧ (partition env root false (.strV hp) noRaid).actions
              = [.mkRoot (r.start : ℚ) (r.stop : ℚ), .rootBoot])
          ∧ (freeSelect env.freeRegions env.sectorSize = none →
            (partition env root efi (.strV hp) noRaid).actions = []
            ∧ resultParts (partition env root efi (.strV hp) noRaid)
              = some ⟨none, none, some hp⟩)) := by
  refine ⟨?_, ?_, ?_, ?_⟩
  · intro regs ss r h
    exact freeSelect_some_spec h
  · intro regs ss h
    exact freeSelect_none_spec h
  · have hb50 : bigEnough [⟨1000, 1249, 250⟩, ⟨100, 149, 50⟩, ⟨300, 479, 180⟩] 1000000 50
        = false := by
      unfold bigEnough
      rw [show dictLast [⟨1000, 1249, 250⟩, ⟨100, 149, 50⟩, ⟨300, 479, 180⟩] 50
          = some ⟨100, 149, 50⟩ from by decide]
      rw [decide_eq_false_iff_not]
      norm_num [Region.getSize]
    have hb180 : bigEnough [⟨1000, 1249, 250⟩, ⟨100, 149, 50⟩, ⟨300, 479, 180⟩] 1000000 180
        = false := by
      unfold bigEnough
      rw [show dictLast [⟨1000, 1249, 250⟩, ⟨100, 149, 50⟩, ⟨300, 479, 180⟩] 180
          = some ⟨300, 479, 180⟩ from by decide]
      rw [decide_eq_false_iff_not]
      norm_num [Region.getSize]
    have hb250 : bigEnough [⟨1000, 1249, 250⟩, ⟨100, 149, 50⟩, ⟨300, 479, 180⟩] 1000000 250
        = true := by
      unfold bigEnough
      rw [show dictLast [⟨1000, 1249, 250⟩, ⟨100, 149, 50⟩, ⟨300, 479, 180⟩] 250
          = some ⟨1000, 1249, 250⟩ from by decide]
      rw [decide_eq_true_eq]
      norm_num [Region.getSize]
    unfold freeSelect
    rw [show freeKeys [⟨1000, 1249, 250⟩, ⟨100, 149, 50⟩, ⟨300, 479, 180⟩]
        = [50, 180, 250] from by decide]
    rw [List.find?_cons_of_neg _ (by rw [hb50]; exact Bool.false_ne_true),
      List.find?_cons_of_neg _ (by rw [hb180]; exact Bool.false_ne_true),
      List.find?_cons_of_pos _ hb250]
    change dictLast [⟨1000, 1249, 250⟩, ⟨100, 149, 50⟩, ⟨300, 479, 180⟩] 250
      = some ⟨1000, 1249, 250⟩
    decide
  · intro env root hp efi hsm hnul hmk hdev
    have hmk2 : ¬ (HomeV.strV hp = HomeV.strV "MAKE") := by simp [hmk]
    have hrp : raidPhase env root (.strV hp) (preprocessRaid noRaid).1
        (preprocessRaid noRaid).2 = ([], .ok (.strV hp)) := by
      have hpre1 : (preprocessRaid noRaid).1 = .noneV := rfl
      have hpre2 : (preprocessRaid noRaid).2 = .dict [] := rfl
      rw [hpre1, hpre2]
      unfold raidPhase
      have hc1 : ¬ ((isNullish (HomeV.strV hp) ∨ HomeV.strV hp = .strV "MAKE")
          ∧ (RTState.noneV = RTState.noneV)) := by
        rintro ⟨hor, -⟩
        rcases hor with h | h
        · exact hnul h
        · exact hmk2 h
      rw [if_neg hc1, if_neg (by simp : ¬ (RTState.noneV ≠ RTState.noneV))]
    have hrun : ∀ efi2 : Bool, partition env root efi2 (.strV hp) noRaid
        = sameDevBranch env root efi2 (.strV hp) [] := by
      intro efi2
      rw [partition_eq_afterClobber hrp]
      unfold afterClobber
      rw [if_neg hsm, if_neg hmk2, if_neg hnul]
      change (if root = devCheck hp then sameDevBranch env root efi2 (.strV hp) []
          else elseBranch env root efi2 (.strV hp) []) = _
      rw [if_pos hdev]
    constructor
    · intro r hsel
      constructor
      · rw [hrun true]
        unfold sameDevBranch
        rw [hsel]
        simp
      · rw [hrun false]
        unfold sameDevBranch
        rw [hsel]
        simp
    · intro hsel
      refine ⟨?_, ?_⟩
      · rw [hrun efi]
        exact (sameDev_none env root efi (.strV hp) [] hsel).2
      · rw [hrun efi]
        rw [(sameDev_none env root efi (.strV hp) [] hsel).1]
        cases efi <;> simp [genReturnData, hmk2]

/-- The single free region of envFS. -/
def r0 : Region := ⟨2048, 500000000, 499997953⟩

/-- C6 witness: on a table with one 499997953-sector free region the scan
picks that region, and the UEFI planner run carves the 200 MB EFI area off
its front with root taking the remainder. -/
theorem c6_free_space_search_witness :
    (200 : ℚ) ≤ r0.getSize 512 ∧ r0 ∈ envFS.freeRegions
    ∧ (partition envFS "/dev/sda" true (.strV "/dev/sda3") noRaid).actions
        = [.mkEfi (r0.start : ℚ) (carveEnd r0 envFS.sectorSize),
           .mkRoot (carveEnd r0 envFS.sectorSize) (r0.stop : ℚ)] := by
  have hbig : bigEnough envFS.freeRegions envFS.sectorSize 499997953 = true := by
    unfold bigEnough
    rw [show dictLast envFS.freeRegions 499997953 = some r0 from by decide]
    rw [decide_eq_true_eq]
    norm_num [Region.getSize, r0, envFS]
  have hsel : freeSelect envFS.freeRegions envFS.sectorSize = some r0 := by
    unfold freeSelect
    rw [show freeKeys envFS.freeRegions = [499997953] from by decide]
    rw [List.find?_cons_of_pos _ hbig]
    change dictLast envFS.freeRegions 499997953 = some r0
    decide
  have hsm : ¬ sizeK envFS ≤ LIMITER := by
    norm_num [sizeK, sectors_to_size, LIMITER, gb_to_bytes, envFS]
  obtain ⟨h200, hmem, _⟩ :=
    c6_free_space_search.1 envFS.freeRegions envFS.sectorSize r0 hsel
  have hplan := (c6_free_space_search.2.2.2 envFS "/dev/sda" "/dev/sda3" true hsm
    (by decide) (by decide) (by decide)).1 r0 hsel
  exact ⟨h200, hmem, hplan.1⟩
